import Mathlib

/-!
# Verification of the `nrg-nodes` Node-RED class adapter

A shallow embedding of the repository's core: the `Node` base-class contract
(`src/node.js`), the registration mixin `createNodeRedNodeMixin`
(`src/helper.js`): contract validation, one-time static metadata injection,
the one-time `init` hook, event-handler binding, and the settings-namespacing
step of `registrationProperties()`; and the `registerNodes` entry point found
in the repository's earlier helper lineage.

JavaScript strings are modelled as `List Char` (ASCII fragment); JavaScript
objects whose keys are non-index strings are modelled as association lists in
insertion order, which is the enumeration order `for...in` uses for such keys.
Thrown exceptions / rejected promises are modelled with `Except`.
-/

set_option autoImplicit false

namespace NrgNodes

/-! ## The `camelcase` npm package (ASCII model)

`registrationProperties` computes `camelCase(`${BaseClass.type}-${key}`)`
using the `camelcase` package (default options).  The definitions below
translate that package's algorithm for ASCII input: trim; single-character
strings are lowercased; insert `-` at camel boundaries when the input has an
uppercase letter (`preserveCamelCase`); strip leading separators; lowercase
everything; then uppercase the character following each separator run while
deleting the run, and uppercase the character following each digit run. -/

/-- Separator characters of the `camelcase` package: `[_.\- ]`. -/
def isSepCh (c : Char) : Bool := c = '_' || c = '.' || c = '-' || c = ' '

/-- Identifier characters of the `camelcase` package (`[\p{Alpha}\p{N}_]`),
restricted to ASCII. -/
def isIdentCh (c : Char) : Bool := c.isAlpha || c.isDigit || c = '_'

/-- JavaScript `String.prototype.trim` on ASCII whitespace. -/
def jsTrim (s : List Char) : List Char :=
  ((s.dropWhile Char.isWhitespace).reverse.dropWhile Char.isWhitespace).reverse

/-- The `preserveCamelCase` pass of the `camelcase` package: walks the string
tracking whether the previous character was lower/upper case and inserts `-`
at a lower→upper boundary and before the final upper of an upper-run followed
by a lower-case character. -/
def preserveCamelCaseAux : List Char → Bool → Bool → Bool → List Char → List Char
  | [], _, _, _, acc => acc.reverse
  | c :: rest, lastLower, lastUpper, lastLastUpper, acc =>
    if lastLower && c.isUpper then
      -- `string = string.slice(0, i) + '-' + string.slice(i); i++`
      preserveCamelCaseAux rest false true lastUpper (c :: '-' :: acc)
    else if lastUpper && lastLastUpper && c.isLower then
      -- `string = string.slice(0, i - 1) + '-' + string.slice(i - 1)`;
      -- the current character is then re-examined, landing in the flag-update
      -- branch, which leaves the flags at (lower, not upper, not last-upper).
      match acc with
      | p :: acc2 => preserveCamelCaseAux rest true false false (c :: p :: '-' :: acc2)
      | [] => preserveCamelCaseAux rest true false false (c :: acc)
    else
      preserveCamelCaseAux rest
        ((c.toLower == c) && (c.toUpper != c))
        ((c.toUpper == c) && (c.toLower != c))
        lastUpper (c :: acc)

def preserveCamelCase (s : List Char) : List Char :=
  preserveCamelCaseAux s false false false []

/-- Greatest index of `'_'` in the list, if any. -/
def lastUnderscorePos : List Char → Option Nat
  | [] => none
  | c :: rest =>
    match lastUnderscorePos rest with
    | some i => some (i + 1)
    | none => if c = '_' then some 0 else none

/-- Greedy match of the regex `[_.\- ]+([\p{Alpha}\p{N}_]|$)` at a separator
run `run` (nonempty, all separators) followed by `after` (first character not
a separator).  Returns the replacement text (the captured character
uppercased) and the remaining input, or `none` when the regex cannot match at
this position.  When the character after the run is neither an identifier
character nor the end, the greedy `+` backtracks until the capture can be an
`'_'` inside the run. -/
def sepRunMatch (run after : List Char) : Option (List Char × List Char) :=
  match after with
  | [] => some ([], [])
  | d :: rest =>
    if isIdentCh d then some ([d.toUpper], rest)
    else
      match lastUnderscorePos run with
      | some i => if 1 ≤ i then some (['_'], run.drop (i + 1) ++ after) else none
      | none => none

/-- Global replacement of `[_.\- ]+([\p{Alpha}\p{N}_]|$)` by the uppercased
capture (the `postProcess` first pass of `camelcase`), with fuel for
termination (each step consumes at least one character). -/
def postSepAux : Nat → List Char → List Char
  | 0, s => s
  | _ + 1, [] => []
  | fuel + 1, c :: rest =>
    if isSepCh c then
      match sepRunMatch (c :: rest.takeWhile isSepCh) (rest.dropWhile isSepCh) with
      | some (rep, remaining) => rep ++ postSepAux fuel remaining
      | none => c :: postSepAux fuel rest
    else c :: postSepAux fuel rest

/-- Global replacement of `\d+([\p{Alpha}\p{N}_]|$)` by the uppercased match
(the `postProcess` second pass of `camelcase`): digits are unchanged by
uppercasing, so the pass uppercases the identifier character following each
digit run. -/
def postDigitAux : Nat → List Char → List Char
  | 0, s => s
  | _ + 1, [] => []
  | fuel + 1, c :: rest =>
    if c.isDigit then
      let run := c :: rest.takeWhile Char.isDigit
      match rest.dropWhile Char.isDigit with
      | [] => run
      | d :: rest2 =>
        if isIdentCh d then run ++ d.toUpper :: postDigitAux fuel rest2
        else run ++ postDigitAux fuel (d :: rest2)
    else c :: postDigitAux fuel rest

/-- The `camelcase` package with default options, on ASCII `List Char`. -/
def camelCaseL (s : List Char) : List Char :=
  let t := jsTrim s
  if t.length = 0 then []
  else if t.length = 1 then t.map Char.toLower
  else
    -- `hasUpperCase = input !== input.toLowerCase()`
    let t1 := if t.map Char.toLower = t then t else preserveCamelCase t
    let t2 := t1.dropWhile isSepCh
    let t3 := t2.map Char.toLower
    let t4 := postSepAux (t3.length + 1) t3
    postDigitAux (t4.length + 1) t4

/-- The `camelcase` package on `String`. -/
def camelCaseStr (s : String) : String := ⟨camelCaseL s.data⟩

example : camelCaseStr "node1" = "node1" := by decide
example : camelCaseStr "node-1" = "node1" := by decide
example : camelCaseStr "node1-customSetting" = "node1CustomSetting" := by decide
example : camelCaseStr "node1-my-setting" = "node1MySetting" := by decide
example : camelCaseStr "node1-customURL" = "node1CustomUrl" := by decide
example : camelCaseStr "foo_bar baz.qux" = "fooBarBazQux" := by decide

/-! ## JavaScript objects with string keys

The settings map returned by a definition's static `settings()` is a plain
JavaScript object.  For objects whose keys are not array indices, `for...in`
enumerates own enumerable keys in insertion order, skipping keys deleted
before being visited; property assignment overwrites in place or appends a
new key at the end; `delete` removes the property.  We model such objects as
association lists in insertion order. -/

variable {V C : Type}

/-- Property read: first (unique) entry with the given key. -/
def objGet : List (String × V) → String → Option V
  | [], _ => none
  | (k2, v) :: rest, k => if k2 = k then some v else objGet rest k

/-- Property assignment: overwrite in place when the key exists, otherwise
append at the end. -/
def objSet : List (String × V) → String → V → List (String × V)
  | [], k, v => [(k, v)]
  | (k2, v2) :: rest, k, v =>
    if k2 = k then (k2, v) :: rest else (k2, v2) :: objSet rest k v

/-- The `delete` operator (keys are unique in a JavaScript object, so
filtering out the key removes exactly the one property). -/
def objDelete (o : List (String × V)) (k : String) : List (String × V) :=
  o.filter (fun kv => decide (kv.1 ≠ k))

/-- `Object.getOwnPropertyNames` / the `for...in` key snapshot. -/
def objKeys (o : List (String × V)) : List String := o.map (·.1)

/-! ## The settings-namespacing step of `registrationProperties` (`src/helper.js`)

```js
const settings = BaseClass.settings();
if (!settings) return undefined;
for (const key in settings) {
  const newKey = camelCase(`${BaseClass.type}-${key}`);
  settings[newKey] = settings[key];
  delete settings[key];
}
return settings;
```
-/

/-- The namespaced key: `camelCase(`${BaseClass.type}-${key}`)`. -/
def nsKey (typ k : String) : String := camelCaseStr (typ ++ "-" ++ k)

/-- The `for...in` body of the namespacing step, iterating over the key
snapshot taken at loop start.  A key deleted (or never present) at visit
time is skipped, as `for...in` does. -/
def settingsForInLoop (typ : String) : List String → List (String × V) → List (String × V)
  | [], o => o
  | k :: ks, o =>
    match objGet o k with
    | none => settingsForInLoop typ ks o
    | some v => settingsForInLoop typ ks (objDelete (objSet o (nsKey typ k) v) k)

/-- The whole namespacing step on the object returned by `settings()`:
the loop mutates that very object in place and the step returns it. -/
def namespaceSettings (typ : String) (o : List (String × V)) : List (String × V) :=
  settingsForInLoop typ (objKeys o) o

/-- The contents of the object that `settings()` returned, observed after
`registrationProperties()` has completed: the loop in the source mutates
that object in place (`settings[newKey] = ...; delete settings[key]`), so
the author-visible object afterwards holds exactly the loop's result. -/
def settingsObjectAfterCall (typ : String) (o : List (String × V)) : List (String × V) :=
  namespaceSettings typ o

/-- The result of a definition's static `settings()` as seen by the
truthiness test `if (!settings) return undefined`: `undefined`, `null`, or
an object (every object is truthy). -/
inductive SettingsResult (V : Type) where
  | undef
  | null
  | obj (o : List (String × V))
  deriving DecidableEq

/-- The registration descriptor `{ credentials, settings }` returned by the
wrapper's static `registrationProperties()`. -/
structure RegProps (C V : Type) where
  credentials : C
  settings : Option (List (String × V))
  deriving DecidableEq

/-- `registrationProperties()` of the wrapper class produced by
`createNodeRedNodeMixin`: credentials are passed through unmodified
(`credentials: BaseClass.credentials()`), and the settings map is absent
when `settings()` returned a falsy value, otherwise namespaced in place.
`typ` is the definition's resolved static `type`. -/
def registrationProperties (typ : String) (credsResult : C)
    (settingsResult : SettingsResult V) : RegProps C V :=
  { credentials := credsResult
    settings :=
      match settingsResult with
      | .undef => none
      | .null => none
      | .obj o => some (namespaceSettings typ o) }

example :
    registrationProperties "node1" "creds" (.obj [("customSetting", "default")]) =
      { credentials := "creds", settings := some [("node1CustomSetting", "default")] } := by
  decide

/-! ## Event-handler binding (`src/helper.js`)

`Object.getOwnPropertyNames(Node.prototype)` lists the own property names of
the contract base class's prototype, in declaration order (`src/node.js`
declares, on the prototype: the constructor, `onInput`, `onClose`, the
`flowContext` and `globalContext` getters, and `evaluateProperty`; `init`,
`credentials` and `settings` are static and live on the class itself). -/

def nodePrototypeOwnPropertyNames : List String :=
  ["constructor", "onInput", "onClose", "flowContext", "globalContext", "evaluateProperty"]

def EVENT_HANDLER_PREFIX_RESERVED_WORD : String := "on"

/-- `true` when the pattern is an initial segment of the list
(JavaScript `String.prototype.startsWith`). -/
def listStartsWith : List Char → List Char → Bool
  | [], _ => true
  | _ :: _, [] => false
  | p :: ps, c :: cs => p = c && listStartsWith ps cs

/-- `Object.getOwnPropertyNames(Node.prototype).filter(m => m.startsWith("on"))`. -/
def EVENT_HANDLER_RESERVED_METHOD_NAMES : List String :=
  nodePrototypeOwnPropertyNames.filter
    (fun m => listStartsWith EVENT_HANDLER_PREFIX_RESERVED_WORD.data m.data)

example : EVENT_HANDLER_RESERVED_METHOD_NAMES = ["onInput", "onClose"] := by decide

/-- Index of the first occurrence of a (nonempty) pattern, as in
`String.prototype.indexOf`. -/
def findSubIdx (pat : List Char) : List Char → Option Nat
  | [] => if pat.isEmpty then some 0 else none
  | c :: cs =>
    if listStartsWith pat (c :: cs) then some 0
    else (findSubIdx pat cs).map (· + 1)

/-- JavaScript `String.prototype.split` with a nonempty string separator,
with fuel for termination (every step consumes at least one character). -/
def jsSplitAux (pat : List Char) : Nat → List Char → List (List Char)
  | 0, s => [s]
  | fuel + 1, s =>
    match findSubIdx pat s with
    | none => [s]
    | some i => s.take i :: jsSplitAux pat fuel (s.drop (i + pat.length))

def jsSplit (pat s : List Char) : List (List Char) :=
  if pat.isEmpty then [s] else jsSplitAux pat (s.length + 1) s

/-- `methodName.split("on")[1].toLocaleLowerCase()`: the event name derived
from a reserved method name (every reserved name starts with `"on"`, so the
split has at least two segments and index `1` is defined). -/
def eventNameOfMethod (methodName : String) : String :=
  ⟨(((jsSplit EVENT_HANDLER_PREFIX_RESERVED_WORD.data methodName.data).getD 1 []).map
      Char.toLower)⟩

example : eventNameOfMethod "onInput" = "input" := by decide
example : eventNameOfMethod "onClose" = "close" := by decide

/-- `setupEventHandlers` of the wrapper class: filter the own property names
of the concrete subclass's prototype by membership in the reserved set, and
subscribe each surviving method, under its derived event name, via
`this.on(eventName, this[methodName])`.  The result lists the
`(event name, method name)` subscriptions in binding order. -/
def setupEventHandlers (ownProtoMethods : List String) : List (String × String) :=
  (ownProtoMethods.filter
      (fun m => decide (m ∈ EVENT_HANDLER_RESERVED_METHOD_NAMES))).map
    (fun m => (eventNameOfMethod m, m))

example : setupEventHandlers ["constructor", "onInput", "helper"] = [("input", "onInput")] := by
  decide

/-! ## The registration adapter `createNodeRedNodeMixin` (`src/helper.js`)

A node definition is a class; its statics (`RED`, `type`) start out
`undefined` and are injected at adaptation time.  `extendsNode` models
`BaseClass.prototype instanceof Node`; `ownProtoMethods` models
`Object.getOwnPropertyNames(BaseClass.prototype)`; `hasInit` models
`typeof BaseClass.init === "function"`; `init` models what invoking the
static `init` hook does (return, return a promise, throw, or reject).
`E` is the type of errors a user `init` can raise. -/

inductive InitBehavior (E : Type) where
  | ok
  | promiseResolved
  | throws (e : E)
  | promiseRejected (e : E)
  deriving DecidableEq

structure NodeClass (R V C E : Type) where
  name : String
  extendsNode : Bool
  ownProtoMethods : List String
  RED : Option R
  type : Option String
  hasInit : Bool
  init : InitBehavior E
  credentials : C
  settings : SettingsResult V
  deriving DecidableEq

/-- The contract base class's static slot `Node.RED` (`static RED;` in
`src/node.js` — `undefined` until registration injects it). -/
structure RegState (R : Type) where
  nodeRED : Option R
  deriving DecidableEq

/-- `Node.RED` at process start, before any registration has run. -/
def initialRegState {R : Type} : RegState R := { nodeRED := none }

/-- A JavaScript exception: either an `Error` thrown by the adapter itself
(carrying its message) or an error raised by the author's `init` hook and
propagated unchanged. -/
inductive JsErr (E : Type) where
  | jsError (msg : String)
  | userErr (e : E)
  deriving DecidableEq

/-- Observable effects, in order, used to state temporal properties. -/
inductive TraceEvent where
  | metadataInjected
  | initCalled
  | initCompleted
  | wrapperProduced
  | instanceConstructed
  | subscribed (eventName : String) (methodName : String)
  | registerTypeCalled (typ : String)
  deriving DecidableEq

/-- Truthiness of the `type` argument (`if (!type) throw ...`): `undefined`
(absent) and the empty string are falsy. -/
def jsFalsyOptStr : Option String → Bool
  | none => true
  | some s => s.isEmpty

/-- JavaScript string coercion of the falsy `type` in the thrown message
`` `${type} must be provided` ``. -/
def jsToString : Option String → String
  | none => "undefined"
  | some s => s

variable {R E : Type}

/-- The inner (async) function of `createNodeRedNodeMixin(RED)`, applied to
`(BaseClass, type)`.  In order, as in the source: contract validation; type
validation; injection of `Node.RED`, `BaseClass.RED` and `BaseClass.type`,
each only when the slot is currently `undefined`; then the one-time `init`
hook, awaited when it returns a promise.  On success the mixin returns the
wrapper class, modelled by the updated definition statics; the first
component is the trace of effects, the second the function's outcome (an
error outcome is the async function's rejection). -/
def adapt (red : R) (st : RegState R) (cls : NodeClass R V C E) (typ : Option String) :
    List TraceEvent × Except (JsErr E) (RegState R × NodeClass R V C E) :=
  if cls.extendsNode = false then
    ([], .error (.jsError (cls.name ++ " must extend Node")))
  else if jsFalsyOptStr typ then
    ([], .error (.jsError (jsToString typ ++ " must be provided")))
  else
    let st2 : RegState R :=
      { nodeRED := match st.nodeRED with | none => some red | some r => some r }
    let cls2 : NodeClass R V C E :=
      { cls with
          RED := match cls.RED with | none => some red | some r => some r
          type := match cls.type with | none => typ | some t => some t }
    if cls.hasInit then
      match cls.init with
      | .ok =>
          ([.metadataInjected, .initCalled, .initCompleted, .wrapperProduced], .ok (st2, cls2))
      | .promiseResolved =>
          ([.metadataInjected, .initCalled, .initCompleted, .wrapperProduced], .ok (st2, cls2))
      | .throws e => ([.metadataInjected, .initCalled], .error (.userErr e))
      | .promiseRejected e => ([.metadataInjected, .initCalled], .error (.userErr e))
    else
      ([.metadataInjected, .wrapperProduced], .ok (st2, cls2))

/-- The statics after a (successful) adaptation: each slot is written only
when currently `undefined`. -/
def injectedState (red : R) (st : RegState R) : RegState R :=
  { nodeRED := match st.nodeRED with | none => some red | some r => some r }

/-- The definition statics after a (successful) adaptation. -/
def injectedClass (red : R) (cls : NodeClass R V C E) (typ : Option String) :
    NodeClass R V C E :=
  { cls with
      RED := match cls.RED with | none => some red | some r => some r
      type := match cls.type with | none => typ | some t => some t }

/-! ## Instance construction (`src/node.js` constructor and the wrapper
constructor of `src/helper.js`) -/

structure Config (F : Type) where
  id : String
  _flow : F
  deriving DecidableEq

/-- The fields the base `Node` constructor sets on the instance. -/
structure NodeFields (F : Type) where
  config : Config F
  id : String
  _flow : F
  deriving DecidableEq

/-- The base `Node` constructor: its first statement dereferences the static
slot, `Node.RED.nodes.createNode(this, config)`; when `Node.RED` is still
`undefined` this raises a `TypeError` before any field is set.  Otherwise it
stores the config and extracts `id` and `_flow`. -/
def nodeBaseConstructor {F : Type} (nodeRED : Option R) (cfg : Config F) :
    Except (JsErr E) (NodeFields F) :=
  match nodeRED with
  | none => .error (.jsError "TypeError: Node.RED is undefined")
  | some _ => .ok { config := cfg, id := cfg.id, _flow := cfg._flow }

/-- An instance of the wrapper class: the base fields plus the event
subscriptions made by `setupEventHandlers`. -/
structure WrapperInstance (F : Type) where
  base : NodeFields F
  subscriptions : List (String × String)
  deriving DecidableEq

/-- The wrapper class constructor (`src/helper.js`): `super(config)` reaches
the base `Node` constructor, then `this.setupEventHandlers()` binds the
subclass's declared lifecycle methods.  Produces the trace of effects and
the outcome. -/
def constructInstance {F : Type} (st : RegState R) (cls : NodeClass R V C E)
    (cfg : Config F) :
    List TraceEvent × Except (JsErr E) (WrapperInstance F) :=
  match nodeBaseConstructor st.nodeRED cfg with
  | .error e => ([], .error e)
  | .ok base =>
    let subs := setupEventHandlers cls.ownProtoMethods
    (.instanceConstructed :: subs.map (fun p => .subscribed p.1 p.2),
     .ok { base := base, subscriptions := subs })

/-- A registration scenario: one adaptation of the definition followed by
the construction of `n` instances of the wrapper class (when adaptation
succeeded), as a single trace of effects. -/
def scenarioTrace {F : Type} (red : R) (st : RegState R) (cls : NodeClass R V C E)
    (typ : Option String) (cfg : Config F) (n : Nat) : List TraceEvent :=
  match adapt red st cls typ with
  | (tr, .error _) => tr
  | (tr, .ok (st2, cls2)) =>
      tr ++ (List.replicate n (constructInstance st2 cls2 cfg).1).flatten

/-- Number of occurrences of an event in a trace. -/
def countEvent (e : TraceEvent) : List TraceEvent → Nat
  | [] => 0
  | x :: rest => (if x = e then 1 else 0) + countEvent e rest

/-! ## The registry entry point `registerNodes` (earlier helper lineage)

The repository's earlier helper (`src/unnamed/part_002`) exports

```js
export function registerNodes(RED, nodes) {
  const nodeRedNodeMixin = createNodeRedNodeMixin(RED);
  for (const node of nodes) {
    if (!node.type) {
      throw new Error(`${node.name} must declare its type as a static prop called type`);
    }
    RED.nodes.registerType(node.type, nodeRedNodeMixin(node));
  }
}
```

whose mixin validates only the contract (`BaseClass.prototype instanceof
Node`).  The mixin call is an argument of `registerType`, so it is evaluated
— and can throw — before the host's type-registration facility is invoked. -/

structure OldNodeClass where
  name : String
  extendsNode : Bool
  /-- The static `type` property; `none` models `undefined` (absent). -/
  type : Option String
  deriving DecidableEq

def registerNodes (nodes : List OldNodeClass) :
    List TraceEvent × Except (JsErr E) Unit :=
  match nodes with
  | [] => ([], .ok ())
  | node :: rest =>
    if jsFalsyOptStr node.type then
      ([], .error (.jsError
        (node.name ++ " must declare its type as a static prop called type")))
    else if node.extendsNode = false then
      ([], .error (.jsError (node.name ++ " must extend Node")))
    else
      match registerNodes rest with
      | (tr, res) => (.registerTypeCalled (jsToString node.type) :: tr, res)

/-! ## Claim-modelled definitions and concrete scenario objects -/

/-- Modelled from the claim's words, for comparison with the source
behaviour (`nsKey`): the key the claim says the descriptor's settings map
carries — `camelCase(T)` concatenated with the original key with its first
letter capitalized. -/
def specClaimedSettingsKey (typ k : String) : String :=
  camelCaseStr typ ++
    (match k.data with
     | [] => ""
     | c :: rest => (⟨c.toUpper :: rest⟩ : String))

/-- A well-formed node definition used in concrete scenarios: extends
`Node`, declares `onInput`, inherits the base static `init` (a function
whose default implementation returns normally), statics not yet injected. -/
def dupDefinition : NodeClass Nat String String Unit :=
  { name := "A", extendsNode := true,
    ownProtoMethods := ["constructor", "onInput"],
    RED := none, type := none, hasInit := true, init := .ok,
    credentials := "creds", settings := .undef }

/-- First adaptation of `dupDefinition` under type `"dup"` with host
handle `7`, from the pristine process state. -/
def c3FirstAdapt :
    List TraceEvent × Except (JsErr Unit) (RegState Nat × NodeClass Nat String String Unit) :=
  adapt 7 initialRegState dupDefinition (some "dup")

/-- The statics after the first adaptation (the fallback branch is never
taken: the first adaptation succeeds). -/
def c3AfterFirst : RegState Nat × NodeClass Nat String String Unit :=
  match c3FirstAdapt.2 with
  | .ok p => p
  | .error _ => (initialRegState, dupDefinition)

/-- Second adaptation attempt for the same (already initialized) definition
declaring the same type `"dup"`, with another host handle `8`. -/
def c3SecondAdapt :
    List TraceEvent × Except (JsErr Unit) (RegState Nat × NodeClass Nat String String Unit) :=
  adapt 8 c3AfterFirst.1 c3AfterFirst.2 (some "dup")

/-! ## Lemmas: the object model and the namespacing loop -/

theorem objKeys_append (a b : List (String × V)) :
    objKeys (a ++ b) = objKeys a ++ objKeys b := by
  simp [objKeys]

theorem objGet_cons_self (k : String) (v : V) (rest : List (String × V)) :
    objGet ((k, v) :: rest) k = some v := by
  simp [objGet]

theorem objSet_append_fresh (o : List (String × V)) (k : String) (v : V)
    (h : k ∉ objKeys o) : objSet o k v = o ++ [(k, v)] := by
  induction o with
  | nil => rfl
  | cons p rest ih =>
    obtain ⟨k2, v2⟩ := p
    simp only [objKeys, List.map_cons, List.mem_cons] at h
    push_neg at h
    simp only [objSet, List.cons_append]
    rw [if_neg (Ne.symm h.1), ih (by simpa [objKeys] using h.2)]

theorem objDelete_append (a b : List (String × V)) (k : String) :
    objDelete (a ++ b) k = objDelete a k ++ objDelete b k := by
  simp [objDelete]

theorem objDelete_of_not_mem (o : List (String × V)) (k : String)
    (h : k ∉ objKeys o) : objDelete o k = o := by
  induction o with
  | nil => rfl
  | cons p rest ih =>
    obtain ⟨k2, v2⟩ := p
    simp only [objKeys, List.map_cons, List.mem_cons] at h
    push_neg at h
    have h2 := ih (by simpa [objKeys] using h.2)
    simp only [objDelete, List.filter_cons] at h2 ⊢
    rw [if_pos (by simpa using Ne.symm h.1), h2]

theorem objDelete_cons_self (k : String) (v : V) (rest : List (String × V)) :
    objDelete ((k, v) :: rest) k = objDelete rest k := by
  simp [objDelete]

/-- The `for...in` namespacing loop, run on an object split as
`rem ++ done` where the keys still to visit are exactly those of `rem`:
when the keys of `rem` are distinct, disjoint from those of `done`, and the
namespaced keys collide neither with the keys of `rem` and `done` nor with
one another, every entry of `rem` is renamed in order and appended after
`done`. -/
theorem settingsForInLoop_spec (typ : String) :
    ∀ (rem done : List (String × V)),
    (objKeys rem).Nodup →
    (∀ k ∈ objKeys rem, k ∉ objKeys done) →
    (∀ k ∈ objKeys rem, nsKey typ k ∉ objKeys rem) →
    (∀ k ∈ objKeys rem, nsKey typ k ∉ objKeys done) →
    (objKeys rem).Pairwise (fun a b => nsKey typ a ≠ nsKey typ b) →
    settingsForInLoop typ (objKeys rem) (rem ++ done) =
      done ++ rem.map (fun kv => (nsKey typ kv.1, kv.2))
  | [], done, _, _, _, _, _ => by
    simp [settingsForInLoop, objKeys]
  | (k, v) :: rest, done, hnd, hdisj, hfresh1, hfresh2, hinj => by
    have hkeys : objKeys ((k, v) :: rest) = k :: objKeys rest := by simp [objKeys]
    rw [hkeys] at hnd hdisj hfresh1 hfresh2 hinj
    have hkrest : k ∉ objKeys rest := by
      simpa using (List.nodup_cons.mp hnd).1
    have hndrest : (objKeys rest).Nodup := (List.nodup_cons.mp hnd).2
    have hkdone : k ∉ objKeys done := hdisj k (by simp)
    have hnkk : nsKey typ k ∉ k :: objKeys rest := hfresh1 k (by simp)
    have hnkdone : nsKey typ k ∉ objKeys done := hfresh2 k (by simp)
    -- the loop body on key `k`
    have hnsne : nsKey typ k ≠ k := by
      intro hh
      exact hnkk (by simp [hh])
    have hsetfresh : nsKey typ k ∉ objKeys (((k, v) :: rest) ++ done) := by
      rw [objKeys_append, hkeys]
      simp only [List.mem_append]
      rintro (h | h)
      · exact hnkk h
      · exact hnkdone h
    have hset : objSet (((k, v) :: rest) ++ done) (nsKey typ k) v =
        ((k, v) :: rest) ++ done ++ [(nsKey typ k, v)] :=
      objSet_append_fresh _ _ _ hsetfresh
    have hdel : objDelete (((k, v) :: rest) ++ done ++ [(nsKey typ k, v)]) k =
        rest ++ (done ++ [(nsKey typ k, v)]) := by
      rw [objDelete_append, objDelete_append, objDelete_cons_self,
        objDelete_of_not_mem rest k hkrest, objDelete_of_not_mem done k hkdone,
        objDelete_of_not_mem [(nsKey typ k, v)] k
          (by
            simp only [objKeys, List.map_cons, List.map_nil, List.mem_singleton]
            exact fun hh => hnsne hh.symm)]
      simp
    have ihapp := settingsForInLoop_spec typ rest (done ++ [(nsKey typ k, v)])
      hndrest
      (by
        intro k2 hk2
        rw [objKeys_append]
        simp only [List.mem_append]
        rintro (h | h)
        · exact hdisj k2 (by simp [hk2]) h
        · simp only [objKeys, List.map_cons, List.map_nil, List.mem_singleton] at h
          exact hnkk (List.mem_cons_of_mem _ (h ▸ hk2)))
      (by
        intro k2 hk2 hmem
        exact hfresh1 k2 (by simp [hk2]) (by simp [hmem]))
      (by
        intro k2 hk2
        rw [objKeys_append]
        simp only [List.mem_append]
        rintro (h | h)
        · exact hfresh2 k2 (by simp [hk2]) h
        · simp only [objKeys, List.map_cons, List.map_nil, List.mem_singleton] at h
          exact (List.pairwise_cons.mp hinj).1 k2 hk2 h.symm)
      (List.pairwise_cons.mp hinj).2
    calc settingsForInLoop typ (k :: objKeys rest) (((k, v) :: rest) ++ done)
        = settingsForInLoop typ (objKeys rest)
            (objDelete (objSet (((k, v) :: rest) ++ done) (nsKey typ k) v) k) := by
          simp [settingsForInLoop, objGet]
      _ = settingsForInLoop typ (objKeys rest) (rest ++ (done ++ [(nsKey typ k, v)])) := by
          rw [hset, hdel]
      _ = (done ++ [(nsKey typ k, v)]) ++ rest.map (fun kv => (nsKey typ kv.1, kv.2)) := ihapp
      _ = done ++ ((k, v) :: rest).map (fun kv => (nsKey typ kv.1, kv.2)) := by
          simp

/-- The namespacing step, in closed form, in the collision-free case. -/
theorem namespaceSettings_eq_map (typ : String) (o : List (String × V))
    (hnd : (objKeys o).Nodup)
    (hfresh : ∀ k ∈ objKeys o, nsKey typ k ∉ objKeys o)
    (hinj : (objKeys o).Pairwise (fun a b => nsKey typ a ≠ nsKey typ b)) :
    namespaceSettings typ o = o.map (fun kv => (nsKey typ kv.1, kv.2)) := by
  have h := settingsForInLoop_spec typ o [] hnd
    (by intro k _ h; simp [objKeys] at h)
    hfresh
    (by intro k _ h; simp [objKeys] at h)
    hinj
  simpa [namespaceSettings] using h

/-- In the collision-free case no original key survives the namespacing. -/
theorem origKeys_not_in_namespaced (typ : String) (o : List (String × V))
    (hfresh : ∀ k ∈ objKeys o, nsKey typ k ∉ objKeys o) :
    ∀ k ∈ objKeys o, k ∉ objKeys (o.map (fun kv => (nsKey typ kv.1, kv.2))) := by
  intro k hk hmem
  simp only [objKeys, List.map_map, List.mem_map, Function.comp] at hmem
  obtain ⟨kv, hkv, hEq⟩ := hmem
  have h2 : kv.1 ∈ objKeys o := by
    simp only [objKeys, List.mem_map]
    exact ⟨kv, hkv, rfl⟩
  exact hfresh kv.1 h2 (by rw [hEq]; exact hk)

/-! ## Lemmas: traces -/

theorem countEvent_append (e : TraceEvent) (a b : List TraceEvent) :
    countEvent e (a ++ b) = countEvent e a + countEvent e b := by
  induction a with
  | nil => simp [countEvent]
  | cons x rest ih => simp [countEvent, ih]; omega

theorem countEvent_eq_zero_of_not_mem (e : TraceEvent) (l : List TraceEvent)
    (h : e ∉ l) : countEvent e l = 0 := by
  induction l with
  | nil => rfl
  | cons x rest ih =>
    simp only [List.mem_cons] at h
    push_neg at h
    simp [countEvent, Ne.symm h.1, ih h.2]

theorem not_mem_flatten_replicate (e : TraceEvent) (t : List TraceEvent) (n : Nat)
    (h : e ∉ t) : e ∉ (List.replicate n t).flatten := by
  intro hmem
  obtain ⟨l, hl, hel⟩ := List.mem_flatten.mp hmem
  rw [List.eq_of_mem_replicate hl] at hel
  exact h hel

/-- The constructor of the wrapper class never invokes `init`. -/
theorem initCalled_not_mem_constructTrace {F : Type} (st : RegState R)
    (cls : NodeClass R V C E) (cfg : Config F) :
    TraceEvent.initCalled ∉ (constructInstance st cls cfg).1 := by
  unfold constructInstance nodeBaseConstructor
  match st.nodeRED with
  | none => simp
  | some r =>
    simp only [List.mem_cons]
    rintro (h | h)
    · cases h
    · obtain ⟨p, _, hp⟩ := List.mem_map.mp h
      cases hp

/-- Shape of a successful adaptation with an `init` hook: the metadata is
injected, `init` is called and completes, and only then the wrapper class
is produced. -/
theorem adapt_ok_shape (red : R) (st : RegState R) (cls : NodeClass R V C E)
    (typ : Option String)
    (hext : cls.extendsNode = true) (htyp : jsFalsyOptStr typ = false)
    (hinit : cls.hasInit = true)
    (hbeh : cls.init = .ok ∨ cls.init = .promiseResolved) :
    adapt red st cls typ =
      ([.metadataInjected, .initCalled, .initCompleted, .wrapperProduced],
        .ok (injectedState red st, injectedClass red cls typ)) := by
  rcases hbeh with hb | hb <;>
    simp [adapt, hext, htyp, hinit, hb, injectedState, injectedClass]

/-! ## The claims -/

/-- **C1, counterexample.**  The claim predicts that for type `"node1"` and
settings key `"my-setting"` the descriptor's settings map carries the key
`camelCase("node1") ++ capitalize("my-setting") = "node1My-setting"`.  The
code computes `camelCase("node1-my-setting") = "node1MySetting"` instead:
the claimed key is not among the produced keys. -/
theorem C1_settingsKey_counterexample :
    (registrationProperties "node1" "creds"
        (SettingsResult.obj [("my-setting", "v")]) : RegProps String String).settings =
      some [("node1MySetting", "v")] ∧
    specClaimedSettingsKey "node1" "my-setting" = "node1My-setting" ∧
    specClaimedSettingsKey "node1" "my-setting" ∉
      objKeys ((registrationProperties "node1" "creds"
        (SettingsResult.obj [("my-setting", "v")]) : RegProps String String).settings.getD []) := by
  decide

/-- **C1 (amended).**  For every node definition with explicit type `T`
whose `settings()` returns a mapping, the settings map in the descriptor
returned by `registrationProperties()` has exactly the keys
`camelCase(T ++ "-" ++ key)` for each original key, in order, each mapped to
the original value object, and none of the original keys remain — provided
the namespaced keys are pairwise distinct and distinct from every original
key (in a collision the in-place loop can re-namespace or overwrite an
entry).  For keys that are plain camelCase identifiers this namespaced key
agrees with the concrete example `node1CustomSetting`. -/
theorem C1_settingsKeys_amended (typ : String) (creds : C) (o : List (String × V))
    (hnd : (objKeys o).Nodup)
    (hfresh : ∀ k ∈ objKeys o, nsKey typ k ∉ objKeys o)
    (hinj : (objKeys o).Pairwise (fun a b => nsKey typ a ≠ nsKey typ b)) :
    registrationProperties typ creds (.obj o) =
      { credentials := creds
        settings := some (o.map (fun kv => (nsKey typ kv.1, kv.2))) } ∧
    ∀ k ∈ objKeys o, k ∉ objKeys (o.map (fun kv => (nsKey typ kv.1, kv.2))) := by
  refine ⟨?_, origKeys_not_in_namespaced typ o hfresh⟩
  simp [registrationProperties, namespaceSettings_eq_map typ o hnd hfresh hinj]

/-- **C1 (amended), witness** at the spec's concrete scenario: type
`"node1"`, settings `{customSetting: "default"}` yield the single key
`node1CustomSetting` and the original key is gone. -/
theorem C1_settingsKeys_amended_witness :
    ((objKeys [("customSetting", ("default" : String))]).Nodup ∧
      (∀ k ∈ objKeys [("customSetting", ("default" : String))],
        nsKey "node1" k ∉ objKeys [("customSetting", ("default" : String))])) ∧
    (registrationProperties "node1" "creds" (.obj [("customSetting", "default")]) =
      { credentials := "creds"
        settings := some ([("customSetting", ("default" : String))].map
          (fun kv => (nsKey "node1" kv.1, kv.2))) } ∧
    ∀ k ∈ objKeys [("customSetting", ("default" : String))],
      k ∉ objKeys ([("customSetting", ("default" : String))].map
        (fun kv => (nsKey "node1" kv.1, kv.2)))) :=
  ⟨⟨by decide, by decide⟩,
    C1_settingsKeys_amended "node1" "creds" [("customSetting", "default")]
      (by decide) (by decide) (by decide)⟩

/-- **C2, counterexample.**  The claim says the object returned by
`settings()` is unmodified after `registrationProperties()` returns.  In
the source the namespacing loop assigns and deletes on that very object:
afterwards its original key `customSetting` is gone and the namespaced key
has been added. -/
theorem C2_mutation_counterexample :
    settingsObjectAfterCall "node1" [("customSetting", ("default" : String))] =
      [("node1CustomSetting", "default")] ∧
    "customSetting" ∉
      objKeys (settingsObjectAfterCall "node1" [("customSetting", ("default" : String))]) := by
  decide

/-- **C2 (amended).**  The settings-namespacing step works in place: for
every definition whose `settings()` returns a mapping (collision-free as in
C1), after `registrationProperties()` returns, the object that `settings()`
returned has been mutated — it holds exactly the namespaced entries and
none of its original keys — and the descriptor's settings field is that
same mutated object. -/
theorem C2_mutation_amended (typ : String) (creds : C) (o : List (String × V))
    (hnd : (objKeys o).Nodup)
    (hfresh : ∀ k ∈ objKeys o, nsKey typ k ∉ objKeys o)
    (hinj : (objKeys o).Pairwise (fun a b => nsKey typ a ≠ nsKey typ b)) :
    settingsObjectAfterCall typ o = o.map (fun kv => (nsKey typ kv.1, kv.2)) ∧
    (∀ k ∈ objKeys o, k ∉ objKeys (settingsObjectAfterCall typ o)) ∧
    (registrationProperties typ creds (.obj o)).settings =
      some (settingsObjectAfterCall typ o) := by
  have hmap := namespaceSettings_eq_map typ o hnd hfresh hinj
  refine ⟨hmap, ?_, rfl⟩
  intro k hk
  rw [show settingsObjectAfterCall typ o = namespaceSettings typ o from rfl, hmap]
  exact origKeys_not_in_namespaced typ o hfresh k hk

/-- **C2 (amended), witness** at the concrete scenario of C2's sources. -/
theorem C2_mutation_amended_witness :
    ((objKeys [("mySetting", ("x" : String))]).Nodup ∧
      (∀ k ∈ objKeys [("mySetting", ("x" : String))],
        nsKey "node-1" k ∉ objKeys [("mySetting", ("x" : String))])) ∧
    (settingsObjectAfterCall "node-1" [("mySetting", ("x" : String))] =
      [("mySetting", ("x" : String))].map (fun kv => (nsKey "node-1" kv.1, kv.2)) ∧
    (∀ k ∈ objKeys [("mySetting", ("x" : String))],
      k ∉ objKeys (settingsObjectAfterCall "node-1" [("mySetting", ("x" : String))])) ∧
    (registrationProperties "node-1" "c" (.obj [("mySetting", ("x" : String))])).settings =
      some (settingsObjectAfterCall "node-1" [("mySetting", ("x" : String))])) :=
  ⟨⟨by decide, by decide⟩,
    C2_mutation_amended "node-1" "c" [("mySetting", "x")] (by decide) (by decide) (by decide)⟩

/-- **C3, counterexample.**  The claim predicts that a second attempt to
attach the host handle and type to an already-initialized definition throws
an `AlreadyInitialized` error.  In the source every injection site is
guarded by `if (... === undefined)`, so adapting the same definition (type
`"dup"`) a second time succeeds — it returns a wrapper class instead of
throwing — and the first-written statics survive unchanged, including the
host handle `7` even though the second call supplied `8`. -/
theorem C3_alreadyInitialized_counterexample :
    c3FirstAdapt.2.isOk = true ∧
    c3SecondAdapt.2.isOk = true ∧
    c3AfterFirst.1.nodeRED = some 7 ∧
    c3AfterFirst.2.RED = some 7 ∧
    c3AfterFirst.2.type = some "dup" := by
  decide

/-- **C3 (amended).**  Per-type metadata injection is write-once by
silent skip, not by throwing: each slot is written only while `undefined`,
so adapting a definition that already carries a host handle and type — with
the base slot `Node.RED` already set — succeeds without any error and
leaves every previously attached value unchanged (the new handle `red2` and
type argument are silently ignored). -/
theorem C3_writeOnce_amended (red2 : R) (st : RegState R) (cls : NodeClass R V C E)
    (typ2 : Option String) (r0 nr : R) (t0 : String)
    (hext : cls.extendsNode = true)
    (htyp2 : jsFalsyOptStr typ2 = false)
    (hinit : cls.hasInit = true)
    (hbeh : cls.init = .ok ∨ cls.init = .promiseResolved)
    (hred : cls.RED = some r0)
    (htype : cls.type = some t0)
    (hnred : st.nodeRED = some nr) :
    (adapt red2 st cls typ2).2 = .ok ({ nodeRED := some nr }, cls) := by
  obtain ⟨name, ext, own, RED, type, hIn, ini, creds, sett⟩ := cls
  simp only at hext htyp2 hinit hbeh hred htype
  subst hext hinit hred htype
  rcases hbeh with hb | hb <;> subst hb <;>
    simp [adapt, htyp2, hnred]

/-- **C3 (amended), witness**: the concrete second adaptation of the
already-initialized `"dup"` definition succeeds and changes nothing. -/
theorem C3_writeOnce_amended_witness :
    (adapt 8 { nodeRED := some 7 }
        { dupDefinition with RED := some 7, type := some "dup" } (some "dup")).2 =
      .ok ({ nodeRED := some 7 },
        { dupDefinition with RED := some 7, type := some "dup" }) :=
  C3_writeOnce_amended 8 { nodeRED := some 7 }
    { dupDefinition with RED := some 7, type := some "dup" } (some "dup") 7 7 "dup"
    (by decide) (by decide) (by decide) (Or.inl (by decide)) (by decide) (by decide) rfl

/-- **C4.**  In a registration scenario — one (successful) adaptation of a
definition with an `init` hook followed by the construction of `n`
instances of the wrapper class — `init` is invoked exactly once, however
many instances are constructed; and `init` has completed before any
instance is constructed: every prefix of the scenario trace that contains
an `instanceConstructed` event already contains `initCompleted` (the mixin
awaits a returned promise before producing the wrapper class). -/
theorem C4_init_once_and_first (F : Type) (red : R) (st : RegState R)
    (cls : NodeClass R V C E) (typ : Option String) (cfg : Config F) (n : Nat)
    (hext : cls.extendsNode = true) (htyp : jsFalsyOptStr typ = false)
    (hinit : cls.hasInit = true)
    (hbeh : cls.init = .ok ∨ cls.init = .promiseResolved) :
    countEvent .initCalled (scenarioTrace red st cls typ cfg n) = 1 ∧
    ∀ p q, scenarioTrace red st cls typ cfg n = p ++ q →
      TraceEvent.instanceConstructed ∈ p → TraceEvent.initCompleted ∈ p := by
  have hshape := adapt_ok_shape red st cls typ hext htyp hinit hbeh
  have hsc : scenarioTrace red st cls typ cfg n =
      [TraceEvent.metadataInjected, .initCalled, .initCompleted, .wrapperProduced] ++
        (List.replicate n
          (constructInstance (injectedState red st) (injectedClass red cls typ) cfg).1).flatten := by
    simp [scenarioTrace, hshape]
  have hnoinit : TraceEvent.initCalled ∉
      (List.replicate n
        (constructInstance (injectedState red st) (injectedClass red cls typ) cfg).1).flatten :=
    not_mem_flatten_replicate _ _ n (initCalled_not_mem_constructTrace _ _ _)
  constructor
  · rw [hsc, countEvent_append, countEvent_eq_zero_of_not_mem _ _ hnoinit]
    decide
  · intro p q hpq hmem
    have hpT : p <+: ([TraceEvent.metadataInjected, .initCalled, .initCompleted,
        .wrapperProduced] ++ _) := ⟨q, hpq.symm.trans hsc⟩
    have hAT := List.prefix_append
      [TraceEvent.metadataInjected, TraceEvent.initCalled, TraceEvent.initCompleted,
        TraceEvent.wrapperProduced]
      (List.replicate n
        (constructInstance (injectedState red st) (injectedClass red cls typ) cfg).1).flatten
    rcases List.prefix_or_prefix_of_prefix hpT hAT with h | h
    · exact absurd (h.subset hmem) (by decide)
    · exact h.subset (by decide)

/-- **C4, witness**: the `"dup"` definition, adapted once and instantiated
twice, calls `init` exactly once, with completion preceding both instance
constructions. -/
theorem C4_init_once_and_first_witness :
    countEvent .initCalled
      (scenarioTrace 7 initialRegState dupDefinition (some "dup")
        { id := "n1", _flow := 0 } 2) = 1 ∧
    ∀ p q, scenarioTrace 7 initialRegState dupDefinition (some "dup")
        { id := "n1", _flow := (0 : Nat) } 2 = p ++ q →
      TraceEvent.instanceConstructed ∈ p → TraceEvent.initCompleted ∈ p :=
  C4_init_once_and_first Nat 7 initialRegState dupDefinition (some "dup")
    { id := "n1", _flow := 0 } 2
    (by decide) (by decide) (by decide) (Or.inl (by decide))

/-- **C5.**  If a definition's static `init` hook throws, or returns an
awaitable that rejects, the adaptation of that type fails: the mixin's
outcome is an error — so no wrapper class is produced for the normal
construction path — and the error surfaced to the caller of registration is
the original error raised by `init`, unwrapped. -/
theorem C5_initFailure_aborts (red : R) (st : RegState R) (cls : NodeClass R V C E)
    (typ : Option String) (e : E)
    (hext : cls.extendsNode = true) (htyp : jsFalsyOptStr typ = false)
    (hinit : cls.hasInit = true)
    (hbeh : cls.init = .throws e ∨ cls.init = .promiseRejected e) :
    (adapt red st cls typ).2 = .error (.userErr e) := by
  rcases hbeh with hb | hb <;> simp [adapt, hext, htyp, hinit, hb]

/-- **C5, witness**: the `"dup"` definition with a rejecting `init`. -/
theorem C5_initFailure_aborts_witness :
    (adapt 7 initialRegState
        ({ dupDefinition with init := .promiseRejected () } :
          NodeClass Nat String String Unit) (some "dup")).2 =
      .error (.userErr ()) :=
  C5_initFailure_aborts 7 initialRegState
    { dupDefinition with init := .promiseRejected () } (some "dup") ()
    (by decide) (by decide) (by decide) (Or.inr (by decide))

/-- Filtering a duplicate-free list that contains `"onInput"` but not
`"onClose"` by membership in the reserved lifecycle names keeps exactly
`"onInput"`. -/
theorem filter_reserved_singleton (l : List String)
    (hnd : l.Nodup) (hin : "onInput" ∈ l) (hcl : "onClose" ∉ l) :
    l.filter (fun m => decide (m ∈ EVENT_HANDLER_RESERVED_METHOD_NAMES)) = ["onInput"] := by
  have hR : EVENT_HANDLER_RESERVED_METHOD_NAMES = ["onInput", "onClose"] := by decide
  induction l with
  | nil => cases hin
  | cons a rest ih =>
    have hnda := (List.nodup_cons.mp hnd).1
    have hndrest := (List.nodup_cons.mp hnd).2
    have hclrest : "onClose" ∉ rest := fun h => hcl (List.mem_cons_of_mem a h)
    rw [List.filter_cons]
    rcases List.mem_cons.mp hin with ha | hin2
    · rw [if_pos (by rw [← ha, hR]; decide)]
      have hrestnil :
          rest.filter (fun m => decide (m ∈ EVENT_HANDLER_RESERVED_METHOD_NAMES)) = [] := by
        rw [List.filter_eq_nil_iff]
        intro x hx
        simp only [decide_eq_true_eq, hR, List.mem_cons, List.mem_singleton,
          List.not_mem_nil]
        rintro (rfl | rfl | h)
        · exact (ha ▸ hnda) hx
        · exact hclrest hx
        · exact h
      rw [hrestnil, ← ha]
    · have hane : a ∉ EVENT_HANDLER_RESERVED_METHOD_NAMES := by
        rw [hR]
        simp only [List.mem_cons, List.mem_singleton, List.not_mem_nil]
        rintro (rfl | rfl | h)
        · exact hnda hin2
        · exact hcl (List.mem_cons_self _ rest)
        · exact h
      rw [if_neg (by simpa using hane)]
      exact ih hndrest hin2 hclrest

/-- **C6.**  For every concrete subclass whose own prototype declares
`onInput` but not `onClose`, the binder subscribes exactly `("input",
onInput)` — the event name derived by removing the `"on"` prefix and
lowercasing the rest — and nothing else (in particular not `"close"`), and
a constructed instance carries exactly that subscription: only reserved
method names literally declared on the subclass's own prototype are
bound. -/
theorem C6_binds_input_not_close (ownProps : List String)
    (hnd : ownProps.Nodup) (hin : "onInput" ∈ ownProps) (hcl : "onClose" ∉ ownProps) :
    setupEventHandlers ownProps = [("input", "onInput")] ∧
    ∀ (F : Type) (r : R) (cls : NodeClass R V C E) (cfg : Config F),
      cls.ownProtoMethods = ownProps →
      (constructInstance { nodeRED := some r } cls cfg).2 =
        .ok { base := { config := cfg, id := cfg.id, _flow := cfg._flow }
              subscriptions := [("input", "onInput")] } := by
  have hmain : setupEventHandlers ownProps = [("input", "onInput")] := by
    unfold setupEventHandlers
    rw [filter_reserved_singleton ownProps hnd hin hcl]
    decide
  refine ⟨hmain, ?_⟩
  intro F r cls cfg hown
  simp [constructInstance, nodeBaseConstructor, hown, hmain]

/-- **C6, witness**: a subclass declaring (besides its constructor) only
`onInput`. -/
theorem C6_binds_input_not_close_witness :
    setupEventHandlers ["constructor", "onInput"] = [("input", "onInput")] ∧
    ∀ (F : Type) (r : Nat) (cls : NodeClass Nat String String Unit) (cfg : Config F),
      cls.ownProtoMethods = ["constructor", "onInput"] →
      (constructInstance { nodeRED := some r } cls cfg).2 =
        .ok { base := { config := cfg, id := cfg.id, _flow := cfg._flow }
              subscriptions := [("input", "onInput")] } :=
  C6_binds_input_not_close ["constructor", "onInput"] (by decide) (by decide) (by decide)

/-- **C7.**  `registerNodes` (the registry entry point of the helper
lineage) with a definition lacking a resolvable `type` throws the
missing-type error, and up to that point the host's type-registration
facility has been called exactly for the earlier, well-formed definitions —
never for the failing one. -/
theorem C7_missingType_before_host_call (pre : List OldNodeClass) (cls : OldNodeClass)
    (post : List OldNodeClass)
    (hpre : ∀ d ∈ pre, jsFalsyOptStr d.type = false ∧ d.extendsNode = true)
    (hcls : jsFalsyOptStr cls.type = true) :
    (registerNodes (pre ++ cls :: post) : List TraceEvent × Except (JsErr E) Unit) =
      (pre.map (fun d => .registerTypeCalled (jsToString d.type)),
       .error (.jsError (cls.name ++ " must declare its type as a static prop called type"))) := by
  induction pre with
  | nil => simp [registerNodes, hcls]
  | cons d rest ih =>
    have hd := hpre d (List.mem_cons_self d rest)
    have hrest : ∀ x ∈ rest, jsFalsyOptStr x.type = false ∧ x.extendsNode = true :=
      fun x hx => hpre x (List.mem_cons_of_mem d hx)
    simp [registerNodes, hd.1, hd.2, ih hrest]

/-- **C7, witness**: a list whose second definition has no `type`; the only
host call is for the first definition. -/
theorem C7_missingType_before_host_call_witness :
    (registerNodes
        [{ name := "A", extendsNode := true, type := some "a" },
         { name := "B", extendsNode := true, type := none },
         { name := "Z", extendsNode := true, type := some "z" }] :
        List TraceEvent × Except (JsErr Unit) Unit) =
      ([TraceEvent.registerTypeCalled "a"],
       .error (.jsError "B must declare its type as a static prop called type")) :=
  C7_missingType_before_host_call
    [{ name := "A", extendsNode := true, type := some "a" }]
    { name := "B", extendsNode := true, type := none }
    [{ name := "Z", extendsNode := true, type := some "z" }]
    (by decide) (by decide)

/-- **C8.**  A candidate class whose prototype chain does not extend the
`Node` contract fails adaptation with the contract-violation error
(`` `${BaseClass.name} must extend Node` ``) raised by the mixin's very
first statement: the trace is empty — no metadata injection, no `init`
call, no wrapper class — so registration aborts for that definition. -/
theorem C8_contractViolation (red : R) (st : RegState R) (cls : NodeClass R V C E)
    (typ : Option String) (h : cls.extendsNode = false) :
    adapt red st cls typ = ([], .error (.jsError (cls.name ++ " must extend Node"))) := by
  simp [adapt, h]

/-- **C8, witness**: a class not extending `Node`. -/
theorem C8_contractViolation_witness :
    adapt 7 initialRegState
      ({ name := "NotANode", extendsNode := false, ownProtoMethods := ["constructor"],
         RED := none, type := none, hasInit := true, init := .ok,
         credentials := "c", settings := .undef } : NodeClass Nat String String Unit)
      (some "t") =
      ([], .error (.jsError "NotANode must extend Node")) :=
  C8_contractViolation 7 initialRegState
    { name := "NotANode", extendsNode := false, ownProtoMethods := ["constructor"],
      RED := none, type := none, hasInit := true, init := .ok,
      credentials := "c", settings := .undef }
    (some "t") (by decide)

/-- **C9.**  For every definition whose `settings()` returns `undefined` or
`null`, `registrationProperties()` returns a descriptor with
`settings: undefined` — the early `if (!settings) return undefined` branch,
no exception — while the credentials field is whatever `credentials()`
returned, passed through unmodified. -/
theorem C9_absent_settings (typ : String) (creds : C) (r : SettingsResult V)
    (h : r = .undef ∨ r = .null) :
    registrationProperties typ creds r = { credentials := creds, settings := none } := by
  rcases h with rfl | rfl <;> rfl

/-- **C9, witness** at `settings()` returning `undefined`. -/
theorem C9_absent_settings_witness :
    registrationProperties "node1" "creds" (SettingsResult.undef : SettingsResult String) =
      { credentials := "creds", settings := none } :=
  C9_absent_settings "node1" "creds" SettingsResult.undef (Or.inl rfl)

/-- **C10.**  For every subclass of the `Node` contract and every config,
construction before registration has injected the host handle fails: the
base constructor's first statement dereferences the static slot
(`Node.RED.nodes.createNode`), which at the pristine process state
(`initialRegState`, `Node.RED` undefined) raises a `TypeError`; so the
wrapper constructor fails too, and completed registration is a
precondition for instance construction. -/
theorem C10_construction_requires_injection (F : Type) (cls : NodeClass R V C E)
    (cfg : Config F) :
    (nodeBaseConstructor (none : Option R) cfg : Except (JsErr E) (NodeFields F)) =
      .error (.jsError "TypeError: Node.RED is undefined") ∧
    (constructInstance (initialRegState : RegState R) cls cfg).2 =
      .error (.jsError "TypeError: Node.RED is undefined") := by
  exact ⟨rfl, rfl⟩

end NrgNodes
